import Mathlib

/-!
Shallow embedding of the option-resolution and command-construction layer of
the VideoConverterScripts repository (`image_converter.py`, `video_converter.py`),
together with theorems settling the specification claims about it.

Conventions of the embedding:
* Python strings are handled through their character lists (`String.data`);
  the character-level helpers below mirror `str.endswith`, `str.lower`,
  `str.split` and the numeric constructors `int(...)` / `float(...)` for the
  string shapes this code path feeds them (optional sign, digits, one decimal
  point; whitespace, underscores and exponent forms are out of scope).
* CPython floats are IEEE-754 binary64 values.  They are modelled as exact
  rationals together with the correct-rounding function `round64`
  (round-to-nearest, ties-to-even, 53-bit significand, unbounded exponent:
  this agrees with binary64 on the whole normal finite range, which covers
  every value reached here).  Each arithmetic step of the Python code is one
  exact rational operation followed by `round64`, matching IEEE semantics.
* External collaborators (Pillow pixel operations, the ffmpeg process, the
  filesystem) are oracles carried in environment records; the control flow
  around them is translated faithfully from the source.  A Python exception
  raised by a collaborator is an `Except.error` outcome of its oracle.
-/

/-! ## Character-level string helpers -/

/-- Value of a list of decimal digit characters (most significant first),
accumulating into `acc`; `none` as soon as a non-digit appears. -/
def digitsVal : List Char → ℕ → Option ℕ
  | [], acc => some acc
  | c :: rest, acc =>
      if c.isDigit then digitsVal rest (acc * 10 + (c.toNat - '0'.toNat))
      else none

/-- Model of Python `int(s)` on a character list: optional sign followed by a
nonempty run of digits (whitespace and underscore forms are not modelled). -/
def pyParseInt : List Char → Option ℤ
  | [] => none
  | '-' :: rest =>
      if rest.isEmpty then none else (digitsVal rest 0).map (fun n => -(n : ℤ))
  | '+' :: rest =>
      if rest.isEmpty then none else (digitsVal rest 0).map (fun n => (n : ℤ))
  | cs => (digitsVal cs 0).map (fun n => (n : ℤ))

/-- Split a character list on a separator character, Python `str.split(sep)`
style: `n` separators produce `n + 1` (possibly empty) parts. -/
def splitOnChar (sep : Char) : List Char → List (List Char)
  | [] => [[]]
  | c :: rest =>
      let r := splitOnChar sep rest
      if c = sep then [] :: r
      else (c :: r.headD []) :: r.tail

/-- Exact rational value of an unsigned decimal literal `intpart[.fracpart]`
(at least one digit overall, at most one point). -/
def decimalVal (cs : List Char) : Option ℚ :=
  match splitOnChar '.' cs with
  | [ip] =>
      if ip.isEmpty then none
      else (digitsVal ip 0).map (fun n => (n : ℚ))
  | [ip, fp] =>
      if ip.isEmpty ∧ fp.isEmpty then none
      else
        match digitsVal ip 0, digitsVal fp 0 with
        | some n, some f => some ((n : ℚ) + (f : ℚ) / (10 : ℚ) ^ fp.length)
        | _, _ => none
  | _ => none

/-- Model of Python `float(s)` up to rounding: the exact rational value of a
signed decimal literal.  The actual float is `round64` of this value. -/
def pyParseFloat : List Char → Option ℚ
  | '-' :: rest => (decimalVal rest).map (fun q => -q)
  | '+' :: rest => decimalVal rest
  | cs => decimalVal cs

/-! ## Binary64 rounding model -/

/-- Round a rational to the nearest integer, ties to even. -/
def rne (x : ℚ) : ℤ :=
  let f := ⌊x⌋
  if x - f < 1 / 2 then f
  else if 1 / 2 < x - f then f + 1
  else if f % 2 = 0 then f else f + 1

/-- Correct rounding of an exact rational to IEEE-754 binary64
(round-to-nearest, ties-to-even, 53-bit significand, unbounded exponent). -/
def round64 (q : ℚ) : ℚ :=
  if q = 0 then 0
  else if 0 < q then
    ((rne (q * (2 : ℚ) ^ ((52 : ℤ) - Int.log 2 q)) : ℤ) : ℚ) * (2 : ℚ) ^ (Int.log 2 q - 52)
  else
    -(((rne (-q * (2 : ℚ) ^ ((52 : ℤ) - Int.log 2 (-q))) : ℤ) : ℚ) * (2 : ℚ) ^ (Int.log 2 (-q) - 52))

/-- Python `int(x)` on a float value: truncation toward zero. -/
def pytrunc (q : ℚ) : ℤ := if 0 ≤ q then ⌊q⌋ else -⌊-q⌋

/-- Python `int_value * float_value` followed by `int(...)`: the integer is
converted to binary64, the product is rounded, the result truncated. -/
def pyIntTimesFloat (n : ℚ) (x : ℚ) : ℤ := pytrunc (round64 (round64 n * x))

/-! ## `ImageConverter._parse_resize` -/

/-- Percentage branch of `_parse_resize`: `float(spec[:-1]) / 100`, then both
dimensions are scaled and truncated (`int(width * percentage)`). -/
def percentCase (cs : List Char) (original_size : ℕ × ℕ) : Except String (ℤ × ℤ) :=
  match pyParseFloat cs with
  | none => .error "ValueError: could not convert string to float"
  | some v =>
      let percentage := round64 (round64 v / 100)
      .ok (pyIntTimesFloat (original_size.1 : ℚ) percentage,
           pyIntTimesFloat (original_size.2 : ℚ) percentage)

/-- Explicit-dimensions branch of `_parse_resize`: an empty part falls back to
the corresponding original dimension, a nonempty part must parse as `int`. -/
def dimsCase (parts : List (List Char)) (original_size : ℕ × ℕ) : Except String (ℤ × ℤ) :=
  match (if (parts.getD 0 []).isEmpty then some (original_size.1 : ℤ)
         else pyParseInt (parts.getD 0 [])),
        (if (parts.getD 1 []).isEmpty then some (original_size.2 : ℤ)
         else pyParseInt (parts.getD 1 [])) with
  | some nw, some nh => .ok (nw, nh)
  | _, _ => .error "ValueError: invalid literal for int"

/-- Single-number branch of `_parse_resize`: the whole spec is the new width,
the height is `int(new_width * (height / width))` in float arithmetic. -/
def widthCase (cs : List Char) (original_size : ℕ × ℕ) : Except String (ℤ × ℤ) :=
  match pyParseInt cs with
  | none => .error "ValueError: invalid literal for int"
  | some new_width =>
      if original_size.1 = 0 then .error "ZeroDivisionError: division by zero"
      else
        let aspect_ratio := round64 ((original_size.2 : ℚ) / (original_size.1 : ℚ))
        .ok (new_width, pyIntTimesFloat (new_width : ℚ) aspect_ratio)

/-- Embedding of `ImageConverter._parse_resize`: percentage suffix first, then
a case-insensitive `x` separator, otherwise a bare width. -/
def parse_resize (resize_spec : String) (original_size : ℕ × ℕ) : Except String (ℤ × ℤ) :=
  if resize_spec.data.getLast? = some '%' then
    percentCase resize_spec.data.dropLast original_size
  else if 'x' ∈ resize_spec.data.map Char.toLower then
    dimsCase (splitOnChar 'x' (resize_spec.data.map Char.toLower)) original_size
  else
    widthCase resize_spec.data original_size

/-! ## `VideoConverter` tables and command builder -/

/-- `VideoConverter.quality_presets`: name to (CRF, speed preset). -/
def video_quality_presets : List (String × (ℕ × String)) :=
  [("low", (28, "fast")), ("medium", (23, "medium")),
   ("high", (18, "slow")), ("lossless", (0, "veryslow"))]

/-- Video codec mapping of `_build_ffmpeg_command`. -/
def video_codec_map : List (String × String) :=
  [("h264", "libx264"), ("h265", "libx265"), ("vp9", "libvpx-vp9"), ("av1", "libaom-av1")]

/-- Audio codec mapping of `_build_ffmpeg_command`. -/
def audio_codec_map : List (String × String) :=
  [("aac", "aac"), ("mp3", "libmp3lame"), ("opus", "libopus")]

/-- The recognized keys of the video options dictionary (`**options`).
`none` models an absent key, which `options.get` replaces by its default. -/
structure VideoOptions where
  start_time : Option String := none
  duration : Option String := none
  video_codec : Option String := none
  quality : Option String := none
  bitrate : Option String := none
  resolution : Option String := none
  fps : Option ℤ := none
  audio_codec : Option String := none
  preset : Option String := none
  format : Option String := none

/-- Python truthiness of `options.get(key)` for a string option: absent keys
and empty strings are falsy. -/
def truthyStr : Option String → Bool
  | none => false
  | some s => !s.data.isEmpty

/-- Python truthiness of `options.get(key)` for an integer option. -/
def truthyInt : Option ℤ → Bool
  | none => false
  | some n => n != 0

/-- Embedding of `VideoConverter._parse_resolution`:
`width, height = map(int, resolution.lower().split('x'))`. -/
def parse_resolution (resolution : String) : Except String (ℤ × ℤ) :=
  if 'x' ∈ resolution.data.map Char.toLower then
    match splitOnChar 'x' (resolution.data.map Char.toLower) with
    | [a, b] =>
        match pyParseInt a, pyParseInt b with
        | some w, some h => .ok (w, h)
        | _, _ => .error "ValueError: invalid literal for int"
    | _ => .error "ValueError: too many values to unpack"
  else .error ("Invalid resolution format: " ++ resolution)

/-- Trim start: `['-ss', start_time]` when truthy. -/
def ssBlock (o : VideoOptions) : List String :=
  if truthyStr o.start_time then ["-ss", o.start_time.getD ""] else []

/-- Trim duration: `['-t', duration]` when truthy. -/
def tBlock (o : VideoOptions) : List String :=
  if truthyStr o.duration then ["-t", o.duration.getD ""] else []

/-- Video codec flags: `['-c:v', codec_map.get(video_codec, 'libx264')]`. -/
def cvBlock (o : VideoOptions) : List String :=
  ["-c:v", (video_codec_map.lookup (o.video_codec.getD "h264")).getD "libx264"]

/-- Quality flags: for a known preset name, CRF (skipped for av1) and the
speed preset from the table; otherwise nothing. -/
def qualityBlock (o : VideoOptions) : List String :=
  match video_quality_presets.lookup (o.quality.getD "medium") with
  | none => []
  | some (crf, sp) =>
      (if o.video_codec.getD "h264" ≠ "av1" then ["-crf", Nat.repr crf] else []) ++
        ["-preset", sp]

/-- Bitrate flags: `['-b:v', bitrate]` when truthy. -/
def bvBlock (o : VideoOptions) : List String :=
  if truthyStr o.bitrate then ["-b:v", o.bitrate.getD ""] else []

/-- Scale filter: parses the resolution (which may raise) into
`['-vf', 'scale=W:H']` when a truthy resolution is present. -/
def scaleBlock (o : VideoOptions) : Except String (List String) :=
  if truthyStr o.resolution then
    match parse_resolution (o.resolution.getD "") with
    | .error e => .error e
    | .ok (w, h) => .ok ["-vf", "scale=" ++ Int.repr w ++ ":" ++ Int.repr h]
  else .ok []

/-- Frame rate flags: `['-r', str(fps)]` when truthy. -/
def fpsBlock (o : VideoOptions) : List String :=
  if truthyInt o.fps then ["-r", Int.repr (o.fps.getD 0)] else []

/-- Audio flags: `['-an']` for `none`, otherwise the mapped `-c:a` codec. -/
def audioBlock (o : VideoOptions) : List String :=
  if o.audio_codec.getD "aac" = "none" then ["-an"]
  else ["-c:a", (audio_codec_map.lookup (o.audio_codec.getD "aac")).getD "aac"]

/-- Encoding speed preset, emitted only for the h264/h265 codecs. -/
def speedBlock (o : VideoOptions) : List String :=
  if o.video_codec.getD "h264" = "h264" ∨ o.video_codec.getD "h264" = "h265" then
    ["-preset", o.preset.getD "medium"]
  else []

/-- Container flags: mp4 targets get the faststart flag. -/
def containerBlock (o : VideoOptions) : List String :=
  if o.format.getD "mp4" = "mp4" then ["-movflags", "+faststart"] else []

/-- Embedding of `VideoConverter._build_ffmpeg_command`: raises when ffmpeg is
missing or the resolution is malformed, otherwise the ordered argument
vector. -/
def build_ffmpeg_command (ffmpeg_path : Option String) (input_path output_path : String)
    (o : VideoOptions) : Except String (List String) :=
  match ffmpeg_path with
  | none => .error "RuntimeError: FFmpeg not available"
  | some ffmpeg =>
      match scaleBlock o with
      | .error e => .error e
      | .ok sb =>
          .ok ([ffmpeg, "-i", input_path] ++ ssBlock o ++ tBlock o ++ cvBlock o ++
            qualityBlock o ++ bvBlock o ++ sb ++ fpsBlock o ++ audioBlock o ++
            speedBlock o ++ containerBlock o ++ ["-y", output_path])

/-- Environment of one `VideoConverter.convert` run: availability of ffmpeg,
filesystem facts, and the external process as an oracle from the argument
vector to an exception or an exit code. -/
structure VidEnv where
  ffmpeg_path : Option String := some "ffmpeg"
  inputExists : Bool := true
  mkdirOk : Bool := true
  runResult : List String → Except String ℤ := fun _ => .ok 0
  outputExists : Bool := true
  outputSize : ℕ := 1

/-- Embedding of `VideoConverter.convert`.  It is a total function into
`Bool`: every failure of a collaborator is converted into `false`, matching
the `try`/`except` structure that never lets an exception escape. -/
def video_convert (env : VidEnv) (input_path output_path : String) (o : VideoOptions) : Bool :=
  match env.ffmpeg_path with
  | none => false
  | some _ =>
      if env.inputExists = false then false
      else if env.mkdirOk = false then false
      else
        match build_ffmpeg_command env.ffmpeg_path input_path output_path o with
        | .error _ => false
        | .ok cmd =>
            match env.runResult cmd with
            | .error _ => false
            | .ok code =>
                if code = 0 then
                  if env.outputExists = true ∧ 0 < env.outputSize then true else false
                else false

/-! ## `ImageConverter` tables, pipeline, and orchestrator -/

/-- `ImageConverter.supported_input_formats`. -/
def supported_input_formats : List String :=
  [".jpg", ".jpeg", ".png", ".bmp", ".tiff", ".tif",
   ".webp", ".gif", ".ico", ".ppm", ".pgm", ".pbm"]

/-- `ImageConverter.supported_output_formats`. -/
def supported_output_formats : List (String × String) :=
  [("jpg", "JPEG"), ("jpeg", "JPEG"), ("png", "PNG"), ("webp", "WebP"),
   ("tiff", "TIFF"), ("bmp", "BMP"), ("gif", "GIF"), ("ico", "ICO")]

/-- `ImageConverter.quality_presets`. -/
def image_quality_presets : List (String × ℤ) :=
  [("low", 60), ("medium", 85), ("high", 95), ("maximum", 100)]

/-- A Python quality value: an integer or a preset-name string. -/
inductive PyQuality where
  | int (n : ℤ)
  | str (s : String)
deriving DecidableEq

/-- Index of the last occurrence of `c` in `cs`. -/
def lastIdxOf (c : Char) : List Char → Option ℕ
  | [] => none
  | a :: rest =>
      match lastIdxOf c rest with
      | some i => some (i + 1)
      | none => if a = c then some 0 else none

/-- Python `str.lower()` (ASCII range, which covers the format tags used). -/
def lowerStr (s : String) : String := ⟨s.data.map Char.toLower⟩

/-- `pathlib.PurePath(p).name`: the final path component. -/
def pathName (p : String) : String := ⟨(splitOnChar '/' p.data).getLastD []⟩

/-- `pathlib.PurePath(p).suffix`: the extension of the final component, taken
from the last dot when that dot is neither leading nor trailing. -/
def pathSuffix (p : String) : String :=
  let name := (splitOnChar '/' p.data).getLastD []
  match lastIdxOf '.' name with
  | some i => if 0 < i ∧ i + 1 < name.length then ⟨name.drop i⟩ else ""
  | none => ""

/-- `pathlib.PurePath(p).stem`: the final component without its suffix. -/
def pathStem (p : String) : String :=
  let name := (splitOnChar '/' p.data).getLastD []
  match lastIdxOf '.' name with
  | some i => if 0 < i ∧ i + 1 < name.length then ⟨name.take i⟩ else ⟨name⟩
  | none => ⟨name⟩

/-- Python `str.lstrip('.')`. -/
def stripDots (s : String) : String := ⟨s.data.dropWhile (fun c => c = '.')⟩

/-- The attributes of a Pillow image handle that this layer inspects.  Pixel
data lives behind the oracle operations of `ImgEnv`. -/
structure PILImage where
  format : Option String := none
  mode : String := "RGB"
  width : ℕ := 0
  height : ℕ := 0
deriving DecidableEq

/-- The keyword arguments assembled for `img.save`. -/
structure SaveOptions where
  quality : Option PyQuality := none
  optimize : Option Bool := none
  progressive : Option Bool := none
deriving DecidableEq

/-- The full argument list of the final `img.save(...)` call. -/
structure SaveCall where
  path : String := ""
  format : Option String := none
  opts : SaveOptions := {}
  img : PILImage := {}
deriving DecidableEq

/-- The recognized keys of the image options dictionary, with the defaults
that the `options.get` calls of `ImageConverter` apply.  The watermark size
default is the binary64 value of the literal `0.1`. -/
structure ImgOptions where
  format : Option String := none
  resize : Option String := none
  sharpen : Bool := false
  blur : Bool := false
  blur_radius : ℚ := 1
  auto_enhance : Bool := false
  watermark : Option String := none
  watermark_position : String := "bottom-right"
  watermark_opacity : ℚ := 1 / 2
  watermark_size : ℚ := (3602879701896397 : ℚ) / 2 ^ 55
  quality : Option PyQuality := none
  optimize : Option Bool := none
  progressive : Bool := false
  strip_metadata : Bool := false

/-- Environment of one `ImageConverter.convert` run: filesystem facts plus the
Pillow operations as oracles.  Fallible collaborators return `Except`; an
`Except.error` models a raised exception. -/
structure ImgEnv where
  pillowOk : Bool := true
  inputExists : Bool := true
  mkdirOk : Bool := true
  openResult : Except String PILImage := .ok {}
  resizeFn : PILImage → ℤ × ℤ → Except String PILImage := fun i _ => .ok i
  sharpenFn : PILImage → PILImage := id
  blurFn : PILImage → ℚ → PILImage := fun i _ => i
  autocontrastFn : PILImage → PILImage := id
  wmOpen : String → Except String PILImage := fun _ => .error "FileNotFoundError"
  wmThumb : PILImage → ℤ → Except String PILImage := fun i _ => .ok i
  wmPoint : PILImage → ℚ → PILImage := fun i _ => i
  convertMode : PILImage → String → PILImage := fun i m => { i with mode := m }
  pasteFn : PILImage → PILImage → ℤ × ℤ → PILImage := fun i _ _ => i
  quantizeFn : PILImage → Except String PILImage := fun i => .ok i
  flattenFn : PILImage → PILImage := id
  stripFn : PILImage → PILImage := id
  saveFn : SaveCall → Except String Unit := fun _ => .ok ()

/-- Embedding of `ImageConverter._add_watermark`.  The whole body sits inside
`try`/`except`, so the function is total: a failing open or thumbnail step
returns the incoming image unchanged (the only rebinding of `img` happens
after those steps). -/
def add_watermark (env : ImgEnv) (img : PILImage) (watermark_path : String)
    (o : ImgOptions) : PILImage :=
  match env.wmOpen watermark_path with
  | .error _ => img
  | .ok wm0 =>
      let wm_size := pyIntTimesFloat ((min img.width img.height : ℕ) : ℚ) o.watermark_size
      let wm1 := env.convertMode wm0 "RGBA"
      match env.wmThumb wm1 wm_size with
      | .error _ => img
      | .ok wm2 =>
          let wm3 := if o.watermark_opacity < 1 then env.wmPoint wm2 o.watermark_opacity else wm2
          let pos : ℤ × ℤ :=
            if o.watermark_position = "top-left" then (10, 10)
            else if o.watermark_position = "top-right" then
              ((img.width : ℤ) - (wm3.width : ℤ) - 10, 10)
            else if o.watermark_position = "bottom-left" then
              (10, (img.height : ℤ) - (wm3.height : ℤ) - 10)
            else if o.watermark_position = "bottom-right" then
              ((img.width : ℤ) - (wm3.width : ℤ) - 10,
               (img.height : ℤ) - (wm3.height : ℤ) - 10)
            else if o.watermark_position = "center" then
              (((img.width : ℤ) - (wm3.width : ℤ)).fdiv 2,
               ((img.height : ℤ) - (wm3.height : ℤ)).fdiv 2)
            else (10, 10)
          let img2 := if img.mode ≠ "RGBA" then env.convertMode img "RGBA" else img
          env.pasteFn img2 wm3 pos

/-- Embedding of `ImageConverter._apply_filters`: sharpen, then blur, then
autocontrast, each conditional on its option. -/
def apply_filters (env : ImgEnv) (img : PILImage) (o : ImgOptions) : PILImage :=
  let img1 := if o.sharpen then env.sharpenFn img else img
  let img2 := if o.blur then env.blurFn img1 o.blur_radius else img1
  if o.auto_enhance then env.autocontrastFn img2 else img2

/-- Embedding of `ImageConverter._optimize_image`: JPEG alpha flattening or
RGB conversion, then the best-effort PNG palette quantization whose failure
keeps the unquantized image. -/
def optimize_image (env : ImgEnv) (img : PILImage) (format_name : Option String)
    (o : ImgOptions) : PILImage :=
  let img1 :=
    if format_name = some "JPEG" ∧ (img.mode = "RGBA" ∨ img.mode = "LA") then env.flattenFn img
    else if format_name = some "JPEG" ∧ ¬(img.mode = "RGB" ∨ img.mode = "L") then
      env.convertMode img "RGB"
    else img
  if format_name = some "PNG" ∧ img1.mode = "RGB" ∧ (o.optimize.getD true) = true then
    match env.quantizeFn img1 with
    | .ok i => i
    | .error _ => img1
  else img1

/-- Quality resolution of `ImageConverter.convert`: a preset-name string from
the table becomes its number, anything else passes through unchanged. -/
def resolve_image_quality (q : Option PyQuality) : PyQuality :=
  match q.getD (PyQuality.int 85) with
  | .str s =>
      match image_quality_presets.lookup s with
      | some v => .int v
      | none => .str s
  | q0 => q0

/-- Save-parameter assembly of `ImageConverter.convert` per target format. -/
def mk_save_options (format_name : Option String) (quality : PyQuality)
    (o : ImgOptions) : SaveOptions :=
  if format_name = some "JPEG" then
    { quality := some quality, optimize := some (o.optimize.getD true),
      progressive := if o.progressive then some true else none }
  else if format_name = some "PNG" then
    { quality := none, optimize := some (o.optimize.getD true), progressive := none }
  else if format_name = some "WebP" then
    { quality := some quality, optimize := some (o.optimize.getD true), progressive := none }
  else {}

/-- Output-format determination of `ImageConverter.convert`: explicit option
(unknown names are a hard error), else recognized output extension, else the
source format. -/
def determine_format (fmt : Option String) (output_path : String)
    (original_format : Option String) : Except String (Option String) :=
  if truthyStr fmt then
    match supported_output_formats.lookup (lowerStr (fmt.getD "")) with
    | some fn => .ok (some fn)
    | none => .error "Unsupported output format"
  else
    match supported_output_formats.lookup (stripDots (lowerStr (pathSuffix output_path))) with
    | some fn => .ok (some fn)
    | none => .ok original_format

/-- Embedding of `ImageConverter.convert` up to (and excluding) the final
`img.save` call, returning the arguments of that call.  Every failure path of
the source is an `Except.error`. -/
def convertCore (env : ImgEnv) (input_path output_path : String) (o : ImgOptions) :
    Except String SaveCall :=
  if env.pillowOk = false then .error "Pillow not found"
  else if env.inputExists = false then .error "Input file not found"
  else if supported_input_formats.contains (lowerStr (pathSuffix input_path)) = false then
    .error "Unsupported input format"
  else if env.mkdirOk = false then .error "OSError: cannot create output directory"
  else
    match env.openResult with
    | .error e => .error e
    | .ok img0 =>
        match determine_format o.format output_path img0.format with
        | .error e => .error e
        | .ok format_name =>
            match (if truthyStr o.resize then
                     match parse_resize (o.resize.getD "") (img0.width, img0.height) with
                     | .error e => .error e
                     | .ok ns => env.resizeFn img0 ns
                   else .ok img0 : Except String PILImage) with
            | .error e => .error e
            | .ok img1 =>
                let img2 := apply_filters env img1 o
                let img3 :=
                  if truthyStr o.watermark then add_watermark env img2 (o.watermark.getD "") o
                  else img2
                let quality := resolve_image_quality o.quality
                let img4 := optimize_image env img3 format_name o
                let save_options := mk_save_options format_name quality o
                let img5 := if o.strip_metadata then env.stripFn img4 else img4
                .ok { path := output_path, format := format_name,
                      opts := save_options, img := img5 }

/-- Embedding of `ImageConverter.convert`: the boolean outcome, `true` exactly
when the pipeline reaches `img.save` and that call succeeds. -/
def image_convert (env : ImgEnv) (input_path output_path : String) (o : ImgOptions) : Bool :=
  match convertCore env input_path output_path o with
  | .error _ => false
  | .ok sc =>
      match env.saveFn sc with
      | .ok _ => true
      | .error _ => false

/-! ## Batch orchestration -/

/-- Python dict assignment `results[k] = v`: overwrite in place or append. -/
def dictInsert (d : List (String × Bool)) (k : String) (v : Bool) : List (String × Bool) :=
  if d.any (fun p => p.1 == k) then d.map (fun p => if p.1 = k then (k, v) else p)
  else d ++ [(k, v)]

/-- Output filename generation of `ImageConverter.batch_convert`: with a
truthy format, `output_dir / (stem + "." + format)`; otherwise the input
name unchanged inside the output directory. -/
def image_output_name (output_dir : String) (fmt : Option String) (input_file : String) :
    String :=
  if truthyStr fmt then output_dir ++ "/" ++ pathStem input_file ++ "." ++ fmt.getD ""
  else output_dir ++ "/" ++ pathName input_file

/-- Output filename generation of `VideoConverter.batch_convert`: always
`output_dir / (stem + "." + format)` with format defaulted to mp4. -/
def video_output_name (output_dir : String) (fmt : Option String) (input_file : String) :
    String :=
  output_dir ++ "/" ++ pathStem input_file ++ "." ++ fmt.getD "mp4"

/-- One loop iteration of `ImageConverter.batch_convert`.  The second
accumulator component records the inputs for which `self.convert` was
actually invoked. -/
def image_batch_step (fsExists : String → Bool) (convertFn : String → String → Bool)
    (output_dir : String) (fmt : Option String)
    (acc : List (String × Bool) × List String) (input_file : String) :
    List (String × Bool) × List String :=
  if fsExists input_file = false then (dictInsert acc.1 input_file false, acc.2)
  else
    (dictInsert acc.1 input_file
      (convertFn input_file (image_output_name output_dir fmt input_file)),
     acc.2 ++ [input_file])

/-- Embedding of `ImageConverter.batch_convert`: create the output directory,
then fold the per-file loop over the inputs in order. -/
def image_batch_convert (mkdirOk : Bool) (fsExists : String → Bool)
    (convertFn : String → String → Bool) (input_files : List String)
    (output_dir : String) (fmt : Option String) :
    Except String (List (String × Bool) × List String) :=
  if mkdirOk = false then .error "OSError: cannot create output directory"
  else .ok (input_files.foldl (image_batch_step fsExists convertFn output_dir fmt) ([], []))

/-- One loop iteration of `VideoConverter.batch_convert` (output name always
uses the format, defaulted to mp4). -/
def video_batch_step (fsExists : String → Bool) (convertFn : String → String → Bool)
    (output_dir : String) (fmt : Option String)
    (acc : List (String × Bool) × List String) (input_file : String) :
    List (String × Bool) × List String :=
  if fsExists input_file = false then (dictInsert acc.1 input_file false, acc.2)
  else
    (dictInsert acc.1 input_file
      (convertFn input_file (video_output_name output_dir fmt input_file)),
     acc.2 ++ [input_file])

/-- Embedding of `VideoConverter.batch_convert`. -/
def video_batch_convert (mkdirOk : Bool) (fsExists : String → Bool)
    (convertFn : String → String → Bool) (input_files : List String)
    (output_dir : String) (fmt : Option String) :
    Except String (List (String × Bool) × List String) :=
  if mkdirOk = false then .error "OSError: cannot create output directory"
  else .ok (input_files.foldl (video_batch_step fsExists convertFn output_dir fmt) ([], []))

/-- Discriminator for `Except` outcomes. -/
def isOkE {ε α : Type} : Except ε α → Bool
  | .ok _ => true
  | .error _ => false

/-- Boolean equality test on `Except`, used for decidability of statements
about concrete runs. -/
def exceptBeq {ε α : Type} [DecidableEq ε] [DecidableEq α] :
    Except ε α → Except ε α → Bool
  | .ok x, .ok y => decide (x = y)
  | .error x, .error y => decide (x = y)
  | _, _ => false

instance {ε α : Type} [DecidableEq ε] [DecidableEq α] : DecidableEq (Except ε α) :=
  fun a b =>
    decidable_of_iff (exceptBeq a b = true) (by
      cases a <;> cases b <;> simp [exceptBeq])

lemma rne_intCast (n : ℤ) : rne (n : ℚ) = n := by
  simp only [rne, Int.floor_intCast, sub_self]
  norm_num

lemma rne_of_floor_lt {x : ℚ} {f : ℤ} (hf : ⌊x⌋ = f) (hr : x - f < 1 / 2) : rne x = f := by
  simp only [rne, hf, if_pos hr]

lemma int_log2_eq {q : ℚ} {L : ℤ} (hq : 0 < q) (h1 : (2 : ℚ) ^ L ≤ q)
    (h2 : q < (2 : ℚ) ^ (L + 1)) : Int.log 2 q = L := by
  have hle : L ≤ Int.log 2 q := (Int.zpow_le_iff_le_log one_lt_two hq).mp (by push_cast; exact h1)
  have hlt : Int.log 2 q < L + 1 :=
    (Int.lt_zpow_iff_log_lt one_lt_two hq).mp (by push_cast; exact h2)
  omega

lemma round64_zero : round64 0 = 0 := by simp [round64]

lemma round64_pos_eq {q : ℚ} (hq : 0 < q) :
    round64 q =
      ((rne (q * (2 : ℚ) ^ ((52 : ℤ) - Int.log 2 q)) : ℤ) : ℚ) * (2 : ℚ) ^ (Int.log 2 q - 52) := by
  rw [round64, if_neg hq.ne', if_pos hq]

lemma round64_neg_eq (q : ℚ) : round64 (-q) = -round64 q := by
  rcases lt_trichotomy q 0 with h | h | h
  · have hnq : 0 < -q := by linarith
    rw [round64_pos_eq hnq, round64, if_neg h.ne, if_neg (not_lt.mpr h.le), neg_neg]
  · simp [h, round64]
  · have h1 : ¬(-q = 0) := by intro hc; apply h.ne'; linarith
    have h2 : ¬(0 < -q) := by intro hc; linarith
    rw [round64, if_neg h1, if_neg h2, neg_neg, round64_pos_eq h]

/-- A value `m * 2 ^ e` with `|m| < 2 ^ 53` is exactly representable in
binary64, so correct rounding leaves it unchanged. -/
lemma round64_dyadic {m e : ℤ} (hm : |m| < 2 ^ 53) :
    round64 ((m : ℚ) * (2 : ℚ) ^ e) = (m : ℚ) * (2 : ℚ) ^ e := by
  have two_pos : (0 : ℚ) < 2 := by norm_num
  have key : ∀ m' : ℤ, 0 < m' → m' < 2 ^ 53 →
      round64 ((m' : ℚ) * (2 : ℚ) ^ e) = (m' : ℚ) * (2 : ℚ) ^ e := by
    intro m' hm0 hm53
    set q : ℚ := (m' : ℚ) * (2 : ℚ) ^ e with hqdef
    have hq : 0 < q := mul_pos (by exact_mod_cast hm0) (zpow_pos two_pos e)
    set L : ℤ := Int.log 2 q with hLdef
    have h1 : (2 : ℚ) ^ L ≤ q := by
      have := Int.zpow_log_le_self (b := 2) one_lt_two hq
      push_cast at this
      rw [← hLdef] at this
      exact this
    have hub : q < (2 : ℚ) ^ (53 + e) := by
      rw [hqdef, zpow_add₀ (by norm_num : (2 : ℚ) ≠ 0)]
      have : ((m' : ℚ)) < (2 : ℚ) ^ (53 : ℤ) := by exact_mod_cast hm53
      have hpe : (0 : ℚ) < (2 : ℚ) ^ e := zpow_pos two_pos e
      exact (mul_lt_mul_of_pos_right this hpe)
    have hLlt : L < 53 + e := by
      have := (Int.lt_zpow_iff_log_lt one_lt_two hq).mp (by push_cast; exact hub)
      omega
    have hk : (0 : ℤ) ≤ 52 - L + e := by omega
    have hs : q * (2 : ℚ) ^ ((52 : ℤ) - L) = ((m' * 2 ^ (52 - L + e).toNat : ℤ) : ℚ) := by
      push_cast
      rw [hqdef, ← zpow_natCast (2 : ℚ), Int.toNat_of_nonneg hk, mul_assoc,
        ← zpow_add₀ (by norm_num : (2 : ℚ) ≠ 0)]
      ring_nf
    rw [round64_pos_eq hq, ← hLdef, hs, rne_intCast]
    push_cast
    rw [← zpow_natCast (2 : ℚ), Int.toNat_of_nonneg hk, mul_assoc,
      ← zpow_add₀ (by norm_num : (2 : ℚ) ≠ 0)]
    rw [hqdef]
    ring_nf
  rcases lt_trichotomy m 0 with h | h | h
  · have : round64 (((-m : ℤ) : ℚ) * (2 : ℚ) ^ e) = ((-m : ℤ) : ℚ) * (2 : ℚ) ^ e :=
      key (-m) (by omega) (by rw [abs_of_neg h] at hm; omega)
    have hcast : ((-m : ℤ) : ℚ) * (2 : ℚ) ^ e = -((m : ℚ) * (2 : ℚ) ^ e) := by push_cast; ring
    rw [hcast] at this
    rw [round64_neg_eq] at this
    linarith
  · simp [h, round64_zero]
  · exact key m h (by rw [abs_of_pos h] at hm; omega)

lemma round64_intCast {m : ℤ} (hm : |m| < 2 ^ 53) : round64 (m : ℚ) = m := by
  have := round64_dyadic (e := 0) hm
  simpa using this

lemma round64_natCast {n : ℕ} (hn : n < 2 ^ 53) : round64 (n : ℚ) = n := by
  have : |(n : ℤ)| < 2 ^ 53 := by
    rw [abs_of_nonneg (Int.ofNat_nonneg n)]
    exact_mod_cast hn
  have h := round64_intCast this
  push_cast at h
  exact h

/-- Evaluation helper: once the binade `L` and the rounded significand `m` have
been identified, `round64` is determined. -/
lemma round64_eval {q : ℚ} {L m : ℤ} (hq : 0 < q)
    (h1 : (2 : ℚ) ^ L ≤ q) (h2 : q < (2 : ℚ) ^ (L + 1))
    (hm : ⌊q * (2 : ℚ) ^ ((52 : ℤ) - L)⌋ = m)
    (hr : q * (2 : ℚ) ^ ((52 : ℤ) - L) - m < 1 / 2) :
    round64 q = (m : ℚ) * (2 : ℚ) ^ (L - 52) := by
  rw [round64_pos_eq hq, int_log2_eq hq h1 h2, rne_of_floor_lt hm hr]

/-! Concrete binary64 evaluations used by the percentage-branch analysis. -/

lemma round64_29_div_100 :
    round64 (29 / 100 : ℚ) = (5224175567749775 : ℚ) * (2 : ℚ) ^ ((-54 : ℤ)) := by
  have h := round64_eval (q := 29 / 100) (L := -2) (m := 5224175567749775)
    (by norm_num) (by norm_num) (by norm_num) ?_ ?_
  · rw [h]; norm_num
  · have : (29 / 100 : ℚ) * (2 : ℚ) ^ ((52 : ℤ) - (-2)) = ((130604389193744384 : ℤ) : ℚ) / ((25 : ℕ) : ℚ) := by
      norm_num
    rw [this, Rat.floor_intCast_div_natCast]
    norm_num
  · norm_num

lemma round64_100_times :
    round64 ((100 : ℚ) * ((5224175567749775 : ℚ) * (2 : ℚ) ^ ((-54 : ℤ)))) =
      (8162774324609023 : ℚ) * (2 : ℚ) ^ ((-48 : ℤ)) := by
  have hq : ((100 : ℚ) * ((5224175567749775 : ℚ) * (2 : ℚ) ^ ((-54 : ℤ)))) =
      (130604389193744375 : ℚ) / (2 : ℚ) ^ (52 : ℕ) := by
    norm_num
  have h := round64_eval (q := (130604389193744375 : ℚ) / (2 : ℚ) ^ (52 : ℕ))
    (L := 4) (m := 8162774324609023) (by positivity) ?_ ?_ ?_ ?_
  · rw [hq, h]
    norm_num
  · norm_num
  · norm_num
  · have : ((130604389193744375 : ℚ) / (2 : ℚ) ^ (52 : ℕ)) * (2 : ℚ) ^ ((52 : ℤ) - 4) =
        ((130604389193744375 : ℤ) : ℚ) / ((16 : ℕ) : ℚ) := by
      norm_num
    rw [this, Rat.floor_intCast_div_natCast]
    norm_num
  · norm_num

lemma round64_29 : round64 (29 : ℚ) = 29 := by
  have h := round64_intCast (m := 29) (by norm_num)
  push_cast at h
  exact h

lemma round64_100 : round64 (100 : ℚ) = 100 := by
  have h := round64_intCast (m := 100) (by norm_num)
  push_cast at h
  exact h

lemma pytrunc_29_percent :
    pytrunc ((8162774324609023 : ℚ) * (2 : ℚ) ^ ((-48 : ℤ))) = 28 := by
  have hval : ((8162774324609023 : ℚ) * (2 : ℚ) ^ ((-48 : ℤ))) =
      ((8162774324609023 : ℤ) : ℚ) / ((281474976710656 : ℕ) : ℚ) := by
    norm_num
  rw [pytrunc, if_pos (by rw [hval]; positivity), hval, Rat.floor_intCast_div_natCast]
  norm_num

lemma percentCase_29 : percentCase ['2', '9'] (100, 100) = .ok (28, 28) := by
  have hf : pyParseFloat ['2', '9'] = some (29 : ℚ) := by decide
  have hP : round64 (round64 (29 : ℚ) / 100) =
      (5224175567749775 : ℚ) * (2 : ℚ) ^ ((-54 : ℤ)) := by
    rw [round64_29]
    exact round64_29_div_100
  have hM : pyIntTimesFloat (100 : ℚ)
      ((5224175567749775 : ℚ) * (2 : ℚ) ^ ((-54 : ℤ))) = 28 := by
    rw [pyIntTimesFloat, round64_100, round64_100_times, pytrunc_29_percent]
  simp only [percentCase, hf, hP]
  push_cast
  rw [hM]

/-! ## Helper lemmas about the string utilities -/

lemma splitOnChar_of_not_mem {c : Char} {cs : List Char} (h : c ∉ cs) :
    splitOnChar c cs = [cs] := by
  induction cs with
  | nil => rfl
  | cons a rest ih =>
      have hac : ¬(a = c) := fun hc => h (hc ▸ List.mem_cons_self a rest)
      have hrest : c ∉ rest := fun hm => h (List.mem_cons_of_mem a hm)
      simp [splitOnChar, hac, ih hrest]

lemma splitOnChar_concat_self {c : Char} {cs : List Char} (h : c ∉ cs) :
    splitOnChar c (cs ++ [c]) = [cs, []] := by
  induction cs with
  | nil => simp [splitOnChar]
  | cons a rest ih =>
      have hac : ¬(a = c) := fun hc => h (hc ▸ List.mem_cons_self a rest)
      have hrest : c ∉ rest := fun hm => h (List.mem_cons_of_mem a hm)
      simp [splitOnChar, hac, ih hrest]

lemma splitOnChar_cons_self (c : Char) (cs : List Char) :
    splitOnChar c (c :: cs) = [] :: splitOnChar c cs := by
  simp [splitOnChar]

lemma pyIntTimesFloat_zero (x : ℚ) : pyIntTimesFloat 0 x = 0 := by
  simp [pyIntTimesFloat, round64_zero, pytrunc]


/-! ## Claim C1: one-sided `Wx` / `xH` resize specs -/

/-- C1 (counterexample): the claim says a one-sided spec derives the missing
dimension so that the original aspect ratio is preserved exactly.  For spec
`"200x"` on a 100x50 original the aspect-preserving height would be
`200 * 50 / 100 = 100`, but `_parse_resize` returns the original height 50. -/
theorem c1_counterexample :
    parse_resize "200x" (100, 50) = .ok (200, 50) ∧
      ((200 * 50 : ℤ) / 100 = 100) ∧ ¬((50 : ℤ) = 100) := by
  refine ⟨?_, by decide, by decide⟩
  decide

/-- C1 (amended): for a one-sided `x` spec the empty side is filled with the
corresponding original dimension, unchanged; no aspect-ratio derivation takes
place.  `ds` is the given side: lowercase-invariant, free of `x`, nonempty,
parsing as the integer `n`, and (for the `xH` form) not ending in `%`. -/
theorem c1_theorem (ds : List Char) (w h : ℕ) (n : ℤ)
    (hlow : ds.map Char.toLower = ds) (hx : 'x' ∉ ds) (hne : ds ≠ [])
    (hpct : ¬(('x' :: ds).getLast? = some '%'))
    (hn : pyParseInt ds = some n) :
    parse_resize ⟨ds ++ ['x']⟩ (w, h) = .ok (n, (h : ℤ)) ∧
      parse_resize ⟨'x' :: ds⟩ (w, h) = .ok ((w : ℤ), n) := by
  have hdsE : ds.isEmpty = false := by
    cases ds with
    | nil => exact absurd rfl hne
    | cons a rest => rfl
  have hxlow : Char.toLower 'x' = 'x' := by decide
  constructor
  · have hnp : ¬((ds ++ ['x']).getLast? = some '%') := by
      rw [List.getLast?_concat ds]; decide
    have hmap : (ds ++ ['x']).map Char.toLower = ds ++ ['x'] := by
      rw [List.map_append, hlow]
      simp [hxlow]
    have hmem : 'x' ∈ (ds ++ ['x']).map Char.toLower := by
      rw [hmap]
      exact List.mem_append_right ds (List.mem_singleton.mpr rfl)
    show parse_resize ⟨ds ++ ['x']⟩ (w, h) = .ok (n, (h : ℤ))
    simp only [parse_resize]
    rw [if_neg hnp, if_pos hmem, hmap, splitOnChar_concat_self hx]
    simp [dimsCase, hdsE, hn]
  · have hmap : ('x' :: ds).map Char.toLower = 'x' :: ds := by
      simp [hxlow, hlow]
    have hmem : 'x' ∈ ('x' :: ds).map Char.toLower := by
      rw [hmap]; exact List.mem_cons_self 'x' ds
    show parse_resize ⟨'x' :: ds⟩ (w, h) = .ok ((w : ℤ), n)
    simp only [parse_resize]
    rw [if_neg hpct, if_pos hmem, hmap, splitOnChar_cons_self,
      splitOnChar_of_not_mem hx]
    simp [dimsCase, hdsE, hn]

/-- C1 (witness): the amended statement evaluated for the spec pair
`"200x"` / `"x200"` on a 100x50 original. -/
theorem c1_witness :
    parse_resize "200x" (100, 50) = .ok (200, (50 : ℤ)) ∧
      parse_resize "x200" (100, 50) = .ok ((100 : ℤ), 200) := by
  exact c1_theorem ['2', '0', '0'] 100 50 200 (by decide) (by decide) (by decide)
    (by decide) (by decide)

/-! ## Claim C9: non-numeric single specs -/

/-- C9 (counterexample): the claim says every spec without `%` and `x` that is
not a positive integer fails with `InvalidSpec`.  The spec `"0"` is not a
positive integer, yet `_parse_resize` accepts it and returns size (0, 0). -/
theorem c9_counterexample : parse_resize "0" (100, 50) = .ok (0, 0) := by
  have h1 : ¬("0".data.getLast? = some '%') := by decide
  have h2 : ¬('x' ∈ "0".data.map Char.toLower) := by decide
  have h3 : pyParseInt "0".data = some 0 := by decide
  simp only [parse_resize]
  rw [if_neg h1, if_neg h2]
  simp only [widthCase, h3]
  norm_num
  exact pyIntTimesFloat_zero _

/-- C9 (amended): on a spec without a `%` suffix and without an `x`
separator, `_parse_resize` fails exactly when the whole spec does not parse
as an integer (`int(spec)` raises `ValueError`); non-positive integer specs
are accepted and returned as-is. -/
theorem c9_theorem (s : String) (w h : ℕ) (hw : 0 < w)
    (hp : ¬(s.data.getLast? = some '%')) (hx : ¬('x' ∈ s.data.map Char.toLower)) :
    isOkE (parse_resize s (w, h)) = (pyParseInt s.data).isSome := by
  simp only [parse_resize]
  rw [if_neg hp, if_neg hx]
  cases hpi : pyParseInt s.data with
  | none => simp [widthCase, hpi, isOkE]
  | some n =>
      have : ¬(w = 0) := Nat.pos_iff_ne_zero.mp hw
      simp [widthCase, hpi, isOkE, this]

/-- C9 (witness): the amended statement evaluated at `"abc"` (non-numeric, so
the parser errors) on a 100x50 original. -/
theorem c9_witness :
    isOkE (parse_resize "abc" (100, 50)) = (pyParseInt "abc".data).isSome ∧
      (pyParseInt "abc".data).isSome = false := by
  exact ⟨c9_theorem ("abc") 100 50 (by decide) (by decide) (by decide), by decide⟩

/-! ## Claim C7: percentage resize specs -/

/-- C7 (counterexample): the claim says a `p%` spec yields exactly
`floor(w * p / 100)` per dimension.  For `"29%"` on a 100x100 original the
claimed result is `(29, 29)`, but `_parse_resize` computes
`int(100 * (float("29") / 100))` in binary64 arithmetic, and
`float("29") / 100` rounds below `0.29`, so the result is `(28, 28)`. -/
theorem c7_counterexample :
    parse_resize "29%" (100, 100) = .ok (28, 28) ∧
      ((100 * 29 / 100 : ℕ) = 29) ∧ ¬((28 : ℤ) = 29) := by
  refine ⟨?_, by norm_num, by norm_num⟩
  have h1 : ("29%".data.getLast? = some '%') := by decide
  simp only [parse_resize]
  rw [if_pos h1]
  have h2 : "29%".data.dropLast = ['2', '9'] := by decide
  rw [h2]
  exact percentCase_29

lemma two_zpow_neg_two : (2 : ℚ) ^ ((-2 : ℤ)) = 1 / 4 := by norm_num

lemma round64_quarter (k : ℕ) (h53 : k < 2 ^ 53) :
    round64 ((k : ℚ) / 4) = (k : ℚ) * (2 : ℚ) ^ ((-2 : ℤ)) := by
  have habs : |(k : ℤ)| < 2 ^ 53 := by
    rw [abs_of_nonneg (Int.ofNat_nonneg k)]
    exact_mod_cast h53
  have hd : ((k : ℚ)) / 4 = ((k : ℤ) : ℚ) * (2 : ℚ) ^ ((-2 : ℤ)) := by
    rw [two_zpow_neg_two]
    push_cast
    ring
  rw [hd, round64_dyadic habs]
  push_cast
  ring

lemma pyIntTimesFloat_quarter (w k : ℕ) (hk : 0 < k) (hwk : w * k < 2 ^ 53) :
    pyIntTimesFloat (w : ℚ) ((k : ℚ) * (2 : ℚ) ^ ((-2 : ℤ))) = ((w * k / 4 : ℕ) : ℤ) := by
  have hw53 : w < 2 ^ 53 := by
    calc w = w * 1 := (mul_one w).symm
    _ ≤ w * k := Nat.mul_le_mul_left w hk
    _ < 2 ^ 53 := hwk
  rw [pyIntTimesFloat, round64_natCast hw53]
  have hprod : (w : ℚ) * ((k : ℚ) * (2 : ℚ) ^ ((-2 : ℤ))) =
      (((w * k : ℕ) : ℤ) : ℚ) * (2 : ℚ) ^ ((-2 : ℤ)) := by
    push_cast
    ring
  rw [hprod, round64_dyadic (by
    rw [abs_of_nonneg (Int.ofNat_nonneg (w * k))]
    exact_mod_cast hwk)]
  have hval : (((w * k : ℕ) : ℤ) : ℚ) * (2 : ℚ) ^ ((-2 : ℤ)) =
      (((w * k : ℕ) : ℤ) : ℚ) / ((4 : ℕ) : ℚ) := by
    rw [two_zpow_neg_two]
    push_cast
    ring
  have hpos : (0 : ℚ) ≤ (((w * k : ℕ) : ℤ) : ℚ) * (2 : ℚ) ^ ((-2 : ℤ)) := by positivity
  rw [pytrunc, if_pos hpos, hval, Rat.floor_intCast_div_natCast]
  exact_mod_cast (Int.natCast_div (w * k) 4).symm

/-- C7 (amended): percentage scaling goes through binary64 float arithmetic,
so the exact `floor(w*p/100)` formula of the claim holds only when no rounding
occurs.  When the percentage `p = 25 * k` is a multiple of 25 (so `p/100` is
the exactly representable `k/4`) and the products stay below `2 ^ 53`, the
parser returns exactly `(w * p / 100, h * p / 100)`. -/
theorem c7_theorem (ds : List Char) (k w h : ℕ)
    (hf : pyParseFloat ds = some ((25 * k : ℕ) : ℚ))
    (hk : 0 < k) (h53 : 25 * k < 2 ^ 53)
    (hw : w * k < 2 ^ 53) (hh : h * k < 2 ^ 53) :
    parse_resize ⟨ds ++ ['%']⟩ (w, h) =
      .ok (((w * (25 * k) / 100 : ℕ) : ℤ), ((h * (25 * k) / 100 : ℕ) : ℤ)) := by
  have h1 : ((ds ++ ['%']).getLast? = some '%') := List.getLast?_concat ds
  simp only [parse_resize]
  rw [if_pos h1]
  rw [show (String.mk (ds ++ ['%'])).data.dropLast = ds by
    simp [List.dropLast_concat]]
  simp only [percentCase, hf]
  have hq : round64 (((25 * k : ℕ) : ℚ)) = ((25 * k : ℕ) : ℚ) := round64_natCast h53
  rw [hq]
  have hdiv : (((25 * k : ℕ) : ℚ)) / 100 = (k : ℚ) / 4 := by
    push_cast
    ring
  rw [hdiv, round64_quarter k (by omega)]
  have hw4 : w * (25 * k) / 100 = w * k / 4 := by
    rw [show w * (25 * k) = 25 * (w * k) by ring, show (100 : ℕ) = 25 * 4 by norm_num,
      Nat.mul_div_mul_left (w * k) 4 (by norm_num)]
  have hh4 : h * (25 * k) / 100 = h * k / 4 := by
    rw [show h * (25 * k) = 25 * (h * k) by ring, show (100 : ℕ) = 25 * 4 by norm_num,
      Nat.mul_div_mul_left (h * k) 4 (by norm_num)]
  rw [hw4, hh4]
  exact congrArg Except.ok
    (congrArg₂ Prod.mk (pyIntTimesFloat_quarter w k hk hw)
      (pyIntTimesFloat_quarter h k hk hh))

/-- C7 (witness): the amended statement evaluated at `"50%"` on a 100x60
original: the result is exactly `(50, 30)`. -/
theorem c7_witness :
    parse_resize "50%" (100, 60) = .ok (((100 * (25 * 2) / 100 : ℕ) : ℤ),
      ((60 * (25 * 2) / 100 : ℕ) : ℤ)) ∧
      (100 * (25 * 2) / 100 : ℕ) = 50 ∧ (60 * (25 * 2) / 100 : ℕ) = 30 := by
  refine ⟨?_, by norm_num, by norm_num⟩
  exact c7_theorem ['5', '0'] 2 100 60 (by decide) (by norm_num) (by norm_num)
    (by norm_num) (by norm_num)

/-! ## Claim C2: h265 + 1280x720 + 30fps + no audio command -/

/-- C2: for options `{video_codec: h265, resolution: "1280x720", fps: 30,
audio_codec: none}` the built argument vector contains the consecutive pairs
`-c:v libx265`, `-vf scale=1280:720`, `-r 30`, contains `-an`, and contains
no `-c:a` flag. -/
theorem c2_theorem :
    ∃ cmd, build_ffmpeg_command (some "ffmpeg") "input.mov" "output.mp4"
        { video_codec := some "h265", resolution := some "1280x720",
          fps := some 30, audio_codec := some "none" } = .ok cmd ∧
      List.IsInfix ["-c:v", "libx265"] cmd ∧
      List.IsInfix ["-vf", "scale=1280:720"] cmd ∧
      List.IsInfix ["-r", "30"] cmd ∧ "-an" ∈ cmd ∧ ¬("-c:a" ∈ cmd) := by
  refine ⟨["ffmpeg", "-i", "input.mov", "-c:v", "libx265", "-crf", "23", "-preset",
    "medium", "-vf", "scale=1280:720", "-r", "30", "-an", "-preset", "medium",
    "-movflags", "+faststart", "-y", "output.mp4"], ?_, ?_, ?_, ?_, ?_, ?_⟩ <;> decide

/-! ## Claims C5 and C8: the quality block of the video command -/

lemma lookup_value_mem {l : List (String × String)} {x v : String}
    (h : List.lookup x l = some v) : v ∈ l.map Prod.snd := by
  induction l with
  | nil => cases h
  | cons p rest ih =>
      obtain ⟨k, w⟩ := p
      rw [List.lookup] at h
      split at h
      · injection h with h
        exact h ▸ List.mem_cons_self _ _
      · exact List.mem_cons_of_mem _ (ih h)

lemma lookup_pair_value_mem {l : List (String × (ℕ × String))} {x : String} {v : ℕ × String}
    (h : List.lookup x l = some v) : v ∈ l.map Prod.snd := by
  induction l with
  | nil => cases h
  | cons p rest ih =>
      obtain ⟨k, w⟩ := p
      rw [List.lookup] at h
      split at h
      · injection h with h
        exact h ▸ List.mem_cons_self _ _
      · exact List.mem_cons_of_mem _ (ih h)

lemma video_codec_ne_crf (x : String) :
    (video_codec_map.lookup x).getD "libx264" ≠ "-crf" := by
  cases h : video_codec_map.lookup x with
  | none => decide
  | some v =>
      have hv := lookup_value_mem h
      simp only [video_codec_map, List.map_cons, List.map_nil, List.mem_cons,
        List.not_mem_nil, or_false] at hv
      rcases hv with rfl | rfl | rfl | rfl <;> decide

lemma audio_codec_ne_crf (x : String) :
    (audio_codec_map.lookup x).getD "aac" ≠ "-crf" := by
  cases h : audio_codec_map.lookup x with
  | none => decide
  | some v =>
      have hv := lookup_value_mem h
      simp only [audio_codec_map, List.map_cons, List.map_nil, List.mem_cons,
        List.not_mem_nil, or_false] at hv
      rcases hv with rfl | rfl | rfl <;> decide

lemma speed_preset_ne_crf {x : String} {crf : ℕ} {sp : String}
    (h : video_quality_presets.lookup x = some (crf, sp)) : sp ≠ "-crf" := by
  have hv := lookup_pair_value_mem h
  simp only [video_quality_presets, List.map_cons, List.map_nil, List.mem_cons,
    List.not_mem_nil, or_false, Prod.mk.injEq] at hv
  rcases hv with ⟨h1, h2⟩ | ⟨h1, h2⟩ | ⟨h1, h2⟩ | ⟨h1, h2⟩ <;> (subst h2; decide)

lemma scale_str_ne_crf (a b : String) : ("scale=" ++ a ++ ":" ++ b) ≠ "-crf" := by
  intro hc
  have h2 := congrArg String.length hc
  rw [String.length_append, String.length_append, String.length_append] at h2
  have h6 : ("scale=" : String).length = 6 := by decide
  have h4 : ("-crf" : String).length = 4 := by decide
  have h1 : (":" : String).length = 1 := by decide
  omega


lemma build_ok_decompose {f ip op : String} {o : VideoOptions} {L : List String}
    (h : build_ffmpeg_command (some f) ip op o = .ok L) :
    ∃ sb, scaleBlock o = .ok sb ∧
      L = [f, "-i", ip] ++ ssBlock o ++ tBlock o ++ cvBlock o ++ qualityBlock o ++
        bvBlock o ++ sb ++ fpsBlock o ++ audioBlock o ++ speedBlock o ++
        containerBlock o ++ ["-y", op] := by
  simp only [build_ffmpeg_command] at h
  cases hsb : scaleBlock o with
  | error e => rw [hsb] at h; cases h
  | ok sb =>
      rw [hsb] at h
      injection h with h
      exact ⟨sb, rfl, h.symm⟩

lemma crf_not_mem_ssBlock {o : VideoOptions}
    (h : ∀ s, o.start_time = some s → s ≠ "-crf") : ¬("-crf" ∈ ssBlock o) := by
  rw [ssBlock]
  split
  next htr =>
    cases hst : o.start_time with
    | none => rw [hst] at htr; exact absurd htr (by decide)
    | some s =>
        simp only [Option.getD, List.mem_cons, List.not_mem_nil, or_false]
        rintro (hc | hc)
        · exact absurd hc (by decide)
        · exact (h s hst) hc.symm
  next => exact List.not_mem_nil _

lemma crf_not_mem_tBlock {o : VideoOptions}
    (h : ∀ s, o.duration = some s → s ≠ "-crf") : ¬("-crf" ∈ tBlock o) := by
  rw [tBlock]
  split
  next htr =>
    cases hst : o.duration with
    | none => rw [hst] at htr; exact absurd htr (by decide)
    | some s =>
        simp only [Option.getD, List.mem_cons, List.not_mem_nil, or_false]
        rintro (hc | hc)
        · exact absurd hc (by decide)
        · exact (h s hst) hc.symm
  next => exact List.not_mem_nil _

lemma crf_not_mem_bvBlock {o : VideoOptions}
    (h : ∀ s, o.bitrate = some s → s ≠ "-crf") : ¬("-crf" ∈ bvBlock o) := by
  rw [bvBlock]
  split
  next htr =>
    cases hst : o.bitrate with
    | none => rw [hst] at htr; exact absurd htr (by decide)
    | some s =>
        simp only [Option.getD, List.mem_cons, List.not_mem_nil, or_false]
        rintro (hc | hc)
        · exact absurd hc (by decide)
        · exact (h s hst) hc.symm
  next => exact List.not_mem_nil _

lemma crf_not_mem_cvBlock (o : VideoOptions) : ¬("-crf" ∈ cvBlock o) := by
  rw [cvBlock]
  simp only [List.mem_cons, List.not_mem_nil, or_false]
  rintro (hc | hc)
  · exact absurd hc (by decide)
  · exact (video_codec_ne_crf (o.video_codec.getD "h264")) hc.symm

lemma crf_not_mem_fpsBlock {o : VideoOptions}
    (h : ∀ n, o.fps = some n → Int.repr n ≠ "-crf") : ¬("-crf" ∈ fpsBlock o) := by
  rw [fpsBlock]
  split
  next htr =>
    cases hst : o.fps with
    | none => rw [hst] at htr; exact absurd htr (by decide)
    | some n =>
        simp only [Option.getD, List.mem_cons, List.not_mem_nil, or_false]
        rintro (hc | hc)
        · exact absurd hc (by decide)
        · exact (h n hst) hc.symm
  next => exact List.not_mem_nil _

lemma crf_not_mem_audioBlock (o : VideoOptions) : ¬("-crf" ∈ audioBlock o) := by
  rw [audioBlock]
  split
  · simp only [List.mem_cons, List.not_mem_nil, or_false]
    rintro hc
    exact absurd hc (by decide)
  · simp only [List.mem_cons, List.not_mem_nil, or_false]
    rintro (hc | hc)
    · exact absurd hc (by decide)
    · exact (audio_codec_ne_crf (o.audio_codec.getD "aac")) hc.symm

lemma crf_not_mem_speedBlock {o : VideoOptions}
    (h : ∀ s, o.preset = some s → s ≠ "-crf") : ¬("-crf" ∈ speedBlock o) := by
  rw [speedBlock]
  split
  · cases hst : o.preset with
    | none =>
        simp only [Option.getD, List.mem_cons, List.not_mem_nil, or_false]
        rintro (hc | hc)
        · exact absurd hc (by decide)
        · exact absurd hc (by decide)
    | some s =>
        simp only [Option.getD, List.mem_cons, List.not_mem_nil, or_false]
        rintro (hc | hc)
        · exact absurd hc (by decide)
        · exact (h s hst) hc.symm
  · exact List.not_mem_nil _

lemma crf_not_mem_containerBlock (o : VideoOptions) : ¬("-crf" ∈ containerBlock o) := by
  rw [containerBlock]
  split
  · decide
  · exact List.not_mem_nil _

lemma crf_not_mem_scaleBlock {o : VideoOptions} {sb : List String}
    (h : scaleBlock o = .ok sb) : ¬("-crf" ∈ sb) := by
  rw [scaleBlock] at h
  split at h
  · cases hp : parse_resolution (o.resolution.getD "") with
    | error e => rw [hp] at h; cases h
    | ok wh =>
        rw [hp] at h
        obtain ⟨w, hgt⟩ := wh
        injection h with h
        rw [← h]
        simp only [List.mem_cons, List.not_mem_nil, or_false]
        rintro (hc | hc)
        · exact absurd hc (by decide)
        · exact (scale_str_ne_crf (Int.repr w) (Int.repr hgt)) hc.symm
  · injection h with h
    rw [← h]
    exact List.not_mem_nil _

lemma qualityBlock_of_known_av1 {o : VideoOptions} {crf : ℕ} {sp : String}
    (hq : video_quality_presets.lookup (o.quality.getD "medium") = some (crf, sp))
    (hav : o.video_codec.getD "h264" = "av1") :
    qualityBlock o = ["-preset", sp] := by
  rw [qualityBlock, hq]
  simp [hav]

lemma qualityBlock_of_known_not_av1 {o : VideoOptions} {crf : ℕ} {sp : String}
    (hq : video_quality_presets.lookup (o.quality.getD "medium") = some (crf, sp))
    (hav : ¬(o.video_codec.getD "h264" = "av1")) :
    qualityBlock o = ["-crf", Nat.repr crf, "-preset", sp] := by
  rw [qualityBlock, hq]
  simp [hav]

lemma crf_not_mem_base {f ip : String} (hf : f ≠ "-crf") (hip : ip ≠ "-crf") :
    ¬("-crf" ∈ [f, "-i", ip]) := by
  simp only [List.mem_cons, List.not_mem_nil, or_false]
  rintro (hc | hc | hc)
  · exact hf hc.symm
  · exact absurd hc (by decide)
  · exact hip hc.symm

lemma crf_not_mem_tail {op : String} (hop : op ≠ "-crf") : ¬("-crf" ∈ ["-y", op]) := by
  simp only [List.mem_cons, List.not_mem_nil, or_false]
  rintro (hc | hc)
  · exact absurd hc (by decide)
  · exact hop hc.symm

/-- C8: when the quality names a preset of the table, the av1 codec suppresses
the `-crf` flag entirely (but still gets the speed preset from the table),
while every other codec receives both `-crf` with the table value and the
table speed preset.  The side hypotheses only say that none of the free-form
option strings is itself the literal `"-crf"`. -/
theorem c8_theorem (f ip op : String) (o : VideoOptions) (crf : ℕ) (sp : String)
    (L : List String)
    (hq : video_quality_presets.lookup (o.quality.getD "medium") = some (crf, sp))
    (hf : f ≠ "-crf") (hip : ip ≠ "-crf") (hop : op ≠ "-crf")
    (hss : ∀ s, o.start_time = some s → s ≠ "-crf")
    (hdur : ∀ s, o.duration = some s → s ≠ "-crf")
    (hbr : ∀ s, o.bitrate = some s → s ≠ "-crf")
    (hpr : ∀ s, o.preset = some s → s ≠ "-crf")
    (hfps : ∀ n, o.fps = some n → Int.repr n ≠ "-crf")
    (hbuild : build_ffmpeg_command (some f) ip op o = .ok L) :
    (o.video_codec.getD "h264" = "av1" →
      L.count "-crf" = 0 ∧ List.IsInfix ["-preset", sp] L) ∧
    (¬(o.video_codec.getD "h264" = "av1") →
      List.IsInfix ["-crf", Nat.repr crf] L ∧ List.IsInfix ["-preset", sp] L) := by
  obtain ⟨sb, hsb, hL⟩ := build_ok_decompose hbuild
  constructor
  · intro hav
    constructor
    · rw [List.count_eq_zero, hL, qualityBlock_of_known_av1 hq hav]
      simp only [List.mem_append, not_or]
      refine ⟨⟨⟨⟨⟨⟨⟨⟨⟨⟨⟨crf_not_mem_base hf hip, crf_not_mem_ssBlock hss⟩,
        crf_not_mem_tBlock hdur⟩, crf_not_mem_cvBlock o⟩, ?_⟩,
        crf_not_mem_bvBlock hbr⟩, crf_not_mem_scaleBlock hsb⟩,
        crf_not_mem_fpsBlock hfps⟩, crf_not_mem_audioBlock o⟩,
        crf_not_mem_speedBlock hpr⟩, crf_not_mem_containerBlock o⟩,
        crf_not_mem_tail hop⟩
      simp only [List.mem_cons, List.not_mem_nil, or_false]
      rintro (hc | hc)
      · exact absurd hc (by decide)
      · exact (speed_preset_ne_crf hq) hc.symm
    · refine ⟨[f, "-i", ip] ++ ssBlock o ++ tBlock o ++ cvBlock o,
        bvBlock o ++ sb ++ fpsBlock o ++ audioBlock o ++ speedBlock o ++
          containerBlock o ++ ["-y", op], ?_⟩
      rw [hL, qualityBlock_of_known_av1 hq hav]
      simp [List.append_assoc]
  · intro hav
    constructor
    · refine ⟨[f, "-i", ip] ++ ssBlock o ++ tBlock o ++ cvBlock o,
        ["-preset", sp] ++ bvBlock o ++ sb ++ fpsBlock o ++ audioBlock o ++
          speedBlock o ++ containerBlock o ++ ["-y", op], ?_⟩
      rw [hL, qualityBlock_of_known_not_av1 hq hav]
      simp [List.append_assoc]
    · refine ⟨[f, "-i", ip] ++ ssBlock o ++ tBlock o ++ cvBlock o ++ ["-crf", Nat.repr crf],
        bvBlock o ++ sb ++ fpsBlock o ++ audioBlock o ++ speedBlock o ++
          containerBlock o ++ ["-y", op], ?_⟩
      rw [hL, qualityBlock_of_known_not_av1 hq hav]
      simp [List.append_assoc]

/-- C8 (witness): the statement evaluated for av1 at quality `high`: the
built command has no `-crf` and carries `-preset slow`. -/
theorem c8_witness :
    (List.count "-crf" ["ffmpeg", "-i", "a.mp4", "-c:v", "libaom-av1", "-preset", "slow",
        "-c:a", "aac", "-movflags", "+faststart", "-y", "b.mp4"] = 0 ∧
      List.IsInfix ["-preset", "slow"]
        ["ffmpeg", "-i", "a.mp4", "-c:v", "libaom-av1", "-preset", "slow",
          "-c:a", "aac", "-movflags", "+faststart", "-y", "b.mp4"]) := by
  have h := c8_theorem ("ffmpeg") ("a.mp4") ("b.mp4")
    { quality := some "high", video_codec := some "av1" } 18 "slow"
    ["ffmpeg", "-i", "a.mp4", "-c:v", "libaom-av1", "-preset", "slow",
      "-c:a", "aac", "-movflags", "+faststart", "-y", "b.mp4"]
    (by decide) (by decide) (by decide) (by decide)
    (by intro s hs; cases hs) (by intro s hs; cases hs) (by intro s hs; cases hs)
    (by intro s hs; cases hs) (by intro n hn; cases hn) (by decide)
  exact h.1 (by decide)

/-- C5 (counterexample): the claim says an unknown preset name fails with an
`UnknownPreset` error.  With quality `"ultra"` the video command builder
succeeds, silently omitting the quality-table parameters (no `-crf` flag and
an empty quality block). -/
theorem c5_counterexample :
    build_ffmpeg_command (some "ffmpeg") "in.mp4" "out.mp4" { quality := some "ultra" } =
      .ok ["ffmpeg", "-i", "in.mp4", "-c:v", "libx264", "-c:a", "aac", "-preset",
        "medium", "-movflags", "+faststart", "-y", "out.mp4"] ∧
      ¬("-crf" ∈ ["ffmpeg", "-i", "in.mp4", "-c:v", "libx264", "-c:a", "aac", "-preset",
        "medium", "-movflags", "+faststart", "-y", "out.mp4"]) ∧
      qualityBlock { quality := some "ultra" } = [] := by
  refine ⟨?_, ?_, ?_⟩ <;> decide

/-- C5 (amended): a quality value that is not a preset-table name is not an
error.  On the video side the quality block of the command is silently empty
(no `-crf`, no table speed preset); on the image side an unknown preset
string passes through quality resolution unchanged and lands verbatim in the
JPEG save parameters. -/
theorem c5_theorem :
    (∀ (o : VideoOptions) (q : String), o.quality = some q →
        video_quality_presets.lookup q = none → qualityBlock o = []) ∧
    (∀ s : String, image_quality_presets.lookup s = none →
        resolve_image_quality (some (.str s)) = .str s) ∧
    (∀ (s : String) (o : ImgOptions), image_quality_presets.lookup s = none →
        (mk_save_options (some "JPEG") (resolve_image_quality (some (.str s))) o).quality =
          some (.str s)) := by
  refine ⟨?_, ?_, ?_⟩
  · intro o q hq hnone
    rw [qualityBlock, hq]
    simp only [Option.getD, hnone]
  · intro s hs
    simp [resolve_image_quality, hs]
  · intro s o hs
    have h1 : resolve_image_quality (some (.str s)) = .str s := by
      simp [resolve_image_quality, hs]
    rw [h1, mk_save_options]
    simp

/-- C5 (witness): the amended statement evaluated at the unknown preset name
`"ultra"`. -/
theorem c5_witness :
    qualityBlock { quality := some "ultra" } = [] ∧
      resolve_image_quality (some (.str "ultra")) = .str "ultra" ∧
      (mk_save_options (some "JPEG") (resolve_image_quality (some (.str "ultra")))
        {}).quality = some (.str "ultra") := by
  exact ⟨c5_theorem.1 { quality := some "ultra" } "ultra" rfl (by decide),
    c5_theorem.2.1 "ultra" (by decide),
    c5_theorem.2.2 "ultra" {} (by decide)⟩

/-! ## Claim C4: the single-file video conversion contract -/

/-- C4: `VideoConverter.convert` is a total boolean function (the embedding
returns `Bool`, mirroring the source whose `try`/`except` never lets an
exception escape), and it returns `true` exactly when every stage succeeds:
ffmpeg present, input present, output directory created, command built, the
external process exited with code 0, and the output file exists with size
strictly greater than zero.  Every exception, nonzero exit code, or
missing/empty output therefore yields `false`. -/
theorem c4_theorem (env : VidEnv) (input_path output_path : String) (o : VideoOptions) :
    video_convert env input_path output_path o = true ↔
      ∃ f cmd, env.ffmpeg_path = some f ∧ env.inputExists = true ∧ env.mkdirOk = true ∧
        build_ffmpeg_command env.ffmpeg_path input_path output_path o = .ok cmd ∧
        env.runResult cmd = .ok 0 ∧ env.outputExists = true ∧ 0 < env.outputSize := by
  constructor
  · intro h
    rw [video_convert] at h
    cases hfp : env.ffmpeg_path with
    | none => simp [hfp] at h
    | some f =>
        cases hie : env.inputExists with
        | false => simp [hfp, hie] at h
        | true =>
            cases hmk : env.mkdirOk with
            | false => simp [hfp, hie, hmk] at h
            | true =>
                cases hb : build_ffmpeg_command (some f) input_path output_path o with
                | error e => simp [hfp, hie, hmk, hb] at h
                | ok cmd =>
                    cases hrun : env.runResult cmd with
                    | error e => simp [hfp, hie, hmk, hb, hrun] at h
                    | ok code =>
                        simp [hfp, hie, hmk, hb, hrun] at h
                        obtain ⟨hc, hoe, hos⟩ := h
                        subst hc
                        exact ⟨f, cmd, rfl, rfl, rfl, rfl, hrun, by rw [hoe], hos⟩
  · rintro ⟨f, cmd, hfp, hie, hmk, hb, hrun, hoe, hos⟩
    rw [video_convert, hfp]
    rw [hfp] at hb
    simp [hb, hrun, hie, hmk]
    exact ⟨hoe, hos⟩

/-! ## Claims C6 and C10: the image pipeline -/

lemma convertCore_ok_spec {env : ImgEnv} {ip op : String} {o : ImgOptions} {sc : SaveCall}
    (h : convertCore env ip op o = .ok sc) :
    sc.path = op ∧
      sc.opts = mk_save_options sc.format (resolve_image_quality o.quality) o := by
  rw [convertCore] at h
  split at h
  · cases h
  · split at h
    · cases h
    · split at h
      · cases h
      · split at h
        · cases h
        · split at h
          · cases h
          · next img0 heq =>
              split at h
              · cases h
              · next fmt heq2 =>
                  split at h
                  · cases h
                  · next img1 heq3 =>
                      injection h with h
                      rw [← h]
                      exact ⟨rfl, rfl⟩

/-- C6 (counterexample): the claim says the unset `optimize` option defaults
to `false`.  With `optimize` unset, the save parameters assembled by
`ImageConverter.convert` for a JPEG target carry `optimize = True`
(`options.get('optimize', True)`), not `false`. -/
theorem c6_counterexample :
    Except.map (fun sc => sc.opts.optimize)
        (convertCore {} "in.png" "out.jpg" { optimize := none }) = .ok (some true) ∧
      ¬((some true : Option Bool) = some false) := by
  refine ⟨?_, ?_⟩ <;> decide

/-- C6 (amended): for every conversion whose `optimize` option is unset and
which reaches the save step with a JPEG, PNG or WebP target, the assembled
save parameters set the optimize flag to `true` (the code default), not the
documented `false`. -/
theorem c6_theorem (env : ImgEnv) (ip op : String) (o : ImgOptions) (sc : SaveCall)
    (hopt : o.optimize = none)
    (h : convertCore env ip op o = .ok sc)
    (hfmt : sc.format = some "JPEG" ∨ sc.format = some "PNG" ∨ sc.format = some "WebP") :
    sc.opts.optimize = some true := by
  obtain ⟨-, hopts⟩ := convertCore_ok_spec h
  rw [hopts]
  rcases hfmt with hf | hf | hf <;> simp [mk_save_options, hf, hopt]

/-- C6 (witness): the amended statement evaluated on a concrete run with
`optimize` unset and a JPEG target. -/
theorem c6_witness :
    ({ path := "out.jpg"
       format := some "JPEG"
       opts := { quality := some (.int 85), optimize := some true,
                 progressive := none }
       img := {} } : SaveCall).opts.optimize = some true := by
  exact c6_theorem {} "in.png" "out.jpg" { optimize := none } _ rfl (by decide)
    (Or.inl rfl)

/-- C10: a failing watermark open (nonexistent or unreadable file) never
raises — `_add_watermark` is total and returns its input image unchanged —
and never changes the outcome of the overall conversion: the run is
indistinguishable from one without the watermark option. -/
theorem c10_theorem (env : ImgEnv) (img : PILImage) (ip op p : String)
    (o : ImgOptions) (e : String)
    (hwm : o.watermark = some p) (hopen : env.wmOpen p = .error e) :
    add_watermark env img p o = img ∧
      convertCore env ip op o = convertCore env ip op { o with watermark := none } ∧
      image_convert env ip op o = image_convert env ip op { o with watermark := none } := by
  have hadd : ∀ i : PILImage, add_watermark env i p o = i := by
    intro i
    rw [add_watermark, hopen]
  have hcore : convertCore env ip op o = convertCore env ip op { o with watermark := none } := by
    simp only [convertCore, apply_filters, optimize_image, mk_save_options, truthyStr,
      hwm, Option.getD, hadd, ite_self]
    rfl
  exact ⟨hadd img, hcore, by rw [image_convert, image_convert, hcore]⟩

/-- C10 (witness): the statement evaluated on a concrete run whose watermark
file `missing.png` cannot be opened. -/
theorem c10_witness :
    add_watermark {} {} "missing.png" { watermark := some "missing.png" } = {} ∧
      convertCore {} "in.png" "out.jpg" { watermark := some "missing.png" } =
        convertCore {} "in.png" "out.jpg" {} ∧
      image_convert {} "in.png" "out.jpg" { watermark := some "missing.png" } =
        image_convert {} "in.png" "out.jpg" {} := by
  exact c10_theorem {} {} "in.png" "out.jpg" "missing.png"
    { watermark := some "missing.png" } "FileNotFoundError" rfl rfl

/-! ## Claim C3: batch orchestration -/

lemma dictInsert_fresh {d : List (String × Bool)} {k : String} {v : Bool}
    (h : ∀ p ∈ d, ¬(p.1 = k)) : dictInsert d k v = d ++ [(k, v)] := by
  rw [dictInsert, if_neg]
  intro hc
  rw [List.any_eq_true] at hc
  obtain ⟨p, hp, hpk⟩ := hc
  exact h p hp (by simpa using hpk)

lemma batch_foldl_spec
    (st : (List (String × Bool) × List String) → String → List (String × Bool) × List String)
    (fs : String → Bool) (r : String → Bool)
    (hst : ∀ acc input, st acc input =
      (dictInsert acc.1 input (if fs input = true then r input else false),
       acc.2 ++ (if fs input = true then [input] else []))) :
    ∀ (inputs : List String), inputs.Nodup →
      ∀ acc : List (String × Bool) × List String,
        (∀ p ∈ acc.1, ¬(p.1 ∈ inputs)) →
        inputs.foldl st acc =
          (acc.1 ++ inputs.map (fun f => (f, if fs f = true then r f else false)),
           acc.2 ++ inputs.filter (fun f => fs f)) := by
  intro inputs
  induction inputs with
  | nil => intro _ acc _; simp
  | cons a rest ih =>
      intro hnd acc hacc
      rw [List.foldl_cons, hst]
      have hfresh : ∀ p ∈ acc.1, ¬(p.1 = a) := by
        intro p hp hc
        exact hacc p hp (hc ▸ List.mem_cons_self a rest)
      rw [dictInsert_fresh hfresh]
      have hrest : ∀ p ∈ acc.1 ++ [(a, if fs a = true then r a else false)],
          ¬(p.1 ∈ rest) := by
        intro p hp
        rcases List.mem_append.mp hp with hp1 | hp1
        · exact fun hc => hacc p hp1 (List.mem_cons_of_mem a hc)
        · rcases List.mem_singleton.mp hp1 with rfl
          exact (List.nodup_cons.mp hnd).1
      rw [ih (List.nodup_cons.mp hnd).2 _ hrest]
      cases hfa : fs a <;>
        simp [List.filter_cons, hfa, List.append_assoc]

lemma image_batch_step_eq (fs : String → Bool) (conv : String → String → Bool)
    (dir : String) (fmt : Option String) :
    ∀ acc input, image_batch_step fs conv dir fmt acc input =
      (dictInsert acc.1 input
        (if fs input = true then conv input (image_output_name dir fmt input) else false),
       acc.2 ++ (if fs input = true then [input] else [])) := by
  intro acc input
  rw [image_batch_step]
  cases hfa : fs input <;> simp [hfa]

lemma video_batch_step_eq (fs : String → Bool) (conv : String → String → Bool)
    (dir : String) (fmt : Option String) :
    ∀ acc input, video_batch_step fs conv dir fmt acc input =
      (dictInsert acc.1 input
        (if fs input = true then conv input (video_output_name dir fmt input) else false),
       acc.2 ++ (if fs input = true then [input] else [])) := by
  intro acc input
  rw [video_batch_step]
  cases hfa : fs input <;> simp [hfa]

/-- C3: batch conversion over distinct inputs, of which those failing the
existence check are the "missing" ones, returns one entry per requested
input keyed by it, in order; the result of each existing input is exactly an
independent single-file conversion of that input (the oracle applied to it
alone); missing inputs are recorded as `false` and the single-file
conversion is never invoked for them (the invocation trace is exactly the
existing inputs); consequently there are exactly M missing-file failure
entries when M inputs are missing.  Both the image and the video batch
orchestrators are covered. -/
theorem c3_theorem (fs : String → Bool) (convI convV : String → String → Bool)
    (inputs : List String) (dir : String) (fmtI fmtV : Option String)
    (hnd : inputs.Nodup) :
    ∃ resI invI resV invV,
      image_batch_convert true fs convI inputs dir fmtI = .ok (resI, invI) ∧
      video_batch_convert true fs convV inputs dir fmtV = .ok (resV, invV) ∧
      resI = inputs.map
        (fun f => (f, if fs f = true then convI f (image_output_name dir fmtI f) else false)) ∧
      resV = inputs.map
        (fun f => (f, if fs f = true then convV f (video_output_name dir fmtV f) else false)) ∧
      invI = inputs.filter (fun f => fs f) ∧
      invV = inputs.filter (fun f => fs f) ∧
      resI.length = inputs.length ∧ resV.length = inputs.length ∧
      (resI.filter (fun p => fs p.1 = false)).length =
        (inputs.filter (fun f => fs f = false)).length ∧
      (resV.filter (fun p => fs p.1 = false)).length =
        (inputs.filter (fun f => fs f = false)).length ∧
      (∀ f ∈ inputs, fs f = false →
        (f, false) ∈ resI ∧ (f, false) ∈ resV ∧ ¬(f ∈ invI) ∧ ¬(f ∈ invV)) := by
  have hI := batch_foldl_spec (image_batch_step fs convI dir fmtI) fs
    (fun f => convI f (image_output_name dir fmtI f))
    (image_batch_step_eq fs convI dir fmtI) inputs hnd ([], []) (by intro p hp; cases hp)
  have hV := batch_foldl_spec (video_batch_step fs convV dir fmtV) fs
    (fun f => convV f (video_output_name dir fmtV f))
    (video_batch_step_eq fs convV dir fmtV) inputs hnd ([], []) (by intro p hp; cases hp)
  simp only [List.nil_append] at hI hV
  refine ⟨_, _, _, _, ?_, ?_, rfl, rfl, rfl, rfl, ?_, ?_, ?_, ?_, ?_⟩
  · rw [image_batch_convert, if_neg (by decide : ¬(true = false)), hI]
  · rw [video_batch_convert, if_neg (by decide : ¬(true = false)), hV]
  · rw [List.length_map]
  · rw [List.length_map]
  · rw [List.filter_map, List.length_map]
    rfl
  · rw [List.filter_map, List.length_map]
    rfl
  · intro f hf hfs
    refine ⟨?_, ?_, ?_, ?_⟩
    · have h1 := List.mem_map_of_mem
        (fun f => (f, if fs f = true then convI f (image_output_name dir fmtI f) else false)) hf
      simpa [hfs] using h1
    · have h1 := List.mem_map_of_mem
        (fun f => (f, if fs f = true then convV f (video_output_name dir fmtV f) else false)) hf
      simpa [hfs] using h1
    · intro hc
      have := (List.mem_filter.mp hc).2
      rw [hfs] at this
      cases this
    · intro hc
      have := (List.mem_filter.mp hc).2
      rw [hfs] at this
      cases this

/-- C3 (witness): the statement evaluated for inputs `a.png`, `b.png`,
`m.png` of which only `m.png` is missing, with an always-true conversion
oracle: three entries, one `false` for the missing file, no invocation for
it. -/
theorem c3_witness :
    image_batch_convert true (fun f => !(f == "m.png")) (fun _ _ => true)
        ["a.png", "b.png", "m.png"] "out" none =
      .ok ([("a.png", true), ("b.png", true), ("m.png", false)], ["a.png", "b.png"]) ∧
    video_batch_convert true (fun f => !(f == "m.png")) (fun _ _ => true)
        ["a.png", "b.png", "m.png"] "out" none =
      .ok ([("a.png", true), ("b.png", true), ("m.png", false)], ["a.png", "b.png"]) := by
  obtain ⟨resI, invI, resV, invV, h1, h2, h3, h4, h5, h6, h7, h8, h9, h10, h11⟩ :=
    c3_theorem (fun f => !(f == "m.png")) (fun _ _ => true) (fun _ _ => true)
      ["a.png", "b.png", "m.png"] "out" none none (by decide)
  rw [h3, h5] at h1
  rw [h4, h6] at h2
  rw [h1, h2]
  refine ⟨?_, ?_⟩ <;> decide
